import Mathlib

/-!
Shallow embedding of the scan engine in `src/src/hooks/useIPScanner.tsx`
(the only source file of the repository).

The embedding models the zustand store (`ScannerStore`), its operations
(`reset`, `addValidIP`, `increaseTestNo`, `dispatch`-style field updates,
`setToIdle`, `stopScan`), and the scan procedures `testIPs`, `startScan`,
`reStart` as a sequential interpreter.  External effects (the transport
collaborator, wall-clock time, user stop clicks, subscriber exceptions)
are supplied by a `ProbeEnv` oracle, indexed by candidate position and
attempt index; the interpreter threads the store state exactly in the
order the source mutates it.  Elapsed times and latencies are modelled
at millisecond granularity as `ℤ` (`Math.floor (a / b)` becomes floor
division `Int.fdiv`); the per-attempt timeout computation, whose
multipliers 1.5 and 1.2 are not integral, is modelled over `ℚ` with
`Math.trunc` as truncating integer division.
-/

namespace KScanner

/-- `type ScanState = "idle" | "stopping" | "scanning"` (source line 26). -/
inductive ScanState where
  | idle
  | stopping
  | scanning
deriving DecidableEq, Repr

/-- The `color` field of the store: `"red" | "green"` (source line 34). -/
inductive UiColor where
  | red
  | green
deriving DecidableEq, Repr

/-- `type ValidIP = { ip: string; latency: number }` (source lines 7-10).
The latency stored is always `Math.floor` of a quotient, hence `ℤ`. -/
structure ValidIP where
  ip : String
  latency : ℤ
deriving DecidableEq, Repr

/-- `const MAX_TRIES = 3` (source line 13). -/
def MAX_TRIES : Nat := 3

/-- `const TRY_CHARS = ["", "|", "/", "-", "\\"]` (source line 12). -/
def TRY_CHARS : List String := ["", "|", "/", "-", "\\"]

/-- The zustand `ScannerStore` state (source lines 28-43): the settings
(`maxIPCount`, `maxLatency`, `ipRegex`, `sniValue`, `portValue`) together
with the transient scan fields.  Function members of the store are
modelled as the operations below. -/
structure ScannerStore where
  maxIPCount : Nat
  maxLatency : ℤ
  ipRegex : String
  sniValue : String
  portValue : ℤ
  testNo : Nat
  validIPs : List ValidIP
  currentIP : String
  tryChar : String
  currentLatency : ℤ
  color : UiColor
  scanState : ScanState
deriving DecidableEq, Repr

/-- `settingsInitialValues` plus the transient part of `initialState`
(source lines 58-75). -/
def initialState : ScannerStore :=
  { maxIPCount := 5
    maxLatency := 1500
    ipRegex := ""
    sniValue := ""
    portValue := 80
    testNo := 0
    validIPs := []
    currentIP := ""
    tryChar := ""
    currentLatency := 0
    color := UiColor.red
    scanState := ScanState.idle }

/-- The comparator `(a, b) => a.latency - b.latency` of source line 92,
as the ordering it sorts by. -/
def latLe (a b : ValidIP) : Prop := a.latency ≤ b.latency

instance : DecidableRel latLe := fun a b =>
  inferInstanceAs (Decidable (a.latency ≤ b.latency))

instance : IsTotal ValidIP latLe := ⟨fun a b => le_total a.latency b.latency⟩

instance : IsTrans ValidIP latLe := ⟨fun _ _ _ h h' => le_trans h h'⟩

/-- `addValidIP` (source lines 89-97): append the new entry and re-sort
the array ascending by latency.  The JS comparison sort is modelled by
`List.insertionSort`, a sort by the same key. -/
def addValidIP (s : ScannerStore) (v : ValidIP) : ScannerStore :=
  { s with validIPs := List.insertionSort latLe (s.validIPs ++ [v]) }

/-- `reset` (source lines 98-108): clears all transient fields, keeps the
settings. -/
def reset (s : ScannerStore) : ScannerStore :=
  { s with
    testNo := 0
    validIPs := []
    currentIP := ""
    tryChar := ""
    currentLatency := 0
    color := UiColor.red
    scanState := ScanState.idle }

/-- `increaseTestNo` (source lines 109-113). -/
def increaseTestNo (s : ScannerStore) : ScannerStore :=
  { s with testNo := s.testNo + 1 }

/-- `setToIdle` (source lines 143-145): `dispatch({ scanState: "idle", tryChar: "" })`. -/
def setToIdle (s : ScannerStore) : ScannerStore :=
  { s with scanState := ScanState.idle, tryChar := "" }

/-- `stopScan` (source lines 161-167). -/
def stopScan (s : ScannerStore) : ScannerStore :=
  if s.scanState = ScanState.scanning then
    { s with scanState := ScanState.stopping }
  else
    setToIdle s

/-- `dispatch({ scanState: "scanning" })` (source lines 153 and 181). -/
def beginScan (s : ScannerStore) : ScannerStore :=
  { s with scanState := ScanState.scanning }

/-- The latency-tier multiplier of source line 246:
`maxLatency <= 500 ? 1.5 : maxLatency <= 1000 ? 1.2 : 1`.
`maxLatency` is the integral setting; the multiplier is rational. -/
def multiply (maxLatency : ℤ) : ℚ :=
  if maxLatency ≤ 500 then 1.5 else if maxLatency ≤ 1000 then 1.2 else 1

/-- `Math.trunc` on a rational: integer division truncating toward zero. -/
def mathTrunc (q : ℚ) : ℤ := q.num.tdiv q.den

/-- One pass of the timeout bookkeeping inside the attempt loop (source
lines 248-272).  The accumulator carries the timer arguments produced so
far and the current value of the mutable `timeout` variable.  At attempt
`i` the source first arms `setTimeout(... , Math.trunc(timeout))` with
the *current* value, then reassigns `timeout` (to `multiply * maxLatency`
when `i === 0`, else `1.2 * multiply * maxLatency`), and passes the *new*
value to `axiosWithSNI`.  Each produced pair is
(abort-timer delay, timeout handed to the transport). -/
def timeoutStepFold (maxLatency : ℤ) (acc : List (ℤ × ℚ) × ℚ) (i : Nat) :
    List (ℤ × ℚ) × ℚ :=
  let timerArg := mathTrunc acc.2
  let t' := if i = 0 then multiply maxLatency * (maxLatency : ℚ)
            else 1.2 * multiply maxLatency * (maxLatency : ℚ)
  (acc.1 ++ [(timerArg, t')], t')

/-- The per-attempt (abort-timer delay, transport timeout) pairs for one
candidate, starting from `let timeout = 1.5 * multiply * maxLatency`
(source line 247). -/
def timeoutSchedule (maxLatency : ℤ) : List (ℤ × ℚ) :=
  ((List.range MAX_TRIES).foldl (timeoutStepFold maxLatency)
    ([], 1.5 * multiply maxLatency * (maxLatency : ℚ))).1

/-- The earliest moment at which attempt `i`'s in-flight request is
cancelled: the minimum of the `AbortController` timer delay and the
timeout value handed to the transport (both mechanisms abort the
request when they fire). -/
def cancelDeadline (maxLatency : ℤ) (i : Nat) : ℚ :=
  let p := (timeoutSchedule maxLatency).getD i (0, 0)
  min (p.1 : ℚ) p.2

/-- The per-attempt deadline as the specification states it:
`multiplier × maxLatency` for attempt 0 and
`1.2 × multiplier × maxLatency` for attempts 1 and 2.  This definition
follows the spec's words, for comparison with `timeoutSchedule` /
`cancelDeadline`, which follow the source. -/
def specClaimedDeadline (maxLatency : ℤ) (i : Nat) : ℚ :=
  if i = 0 then multiply maxLatency * (maxLatency : ℚ)
  else 1.2 * multiply maxLatency * (maxLatency : ℚ)

/-- Outcome of one probe attempt as the `catch` of source lines 271-279
distinguishes it: either the request completed (`await` returned), or a
value was thrown; in the latter case what matters is whether the thrown
value is an `Error` instance and, if so, its `name`. -/
inductive AttemptResult where
  | ok
  | thrown (isError : Bool) (name : String)
deriving DecidableEq, Repr

/-- Whether an attempt increments `testCount` (source lines 271-279):
a completed request always does; a thrown value does iff it is an
`Error` whose `name` is not in `["AbortError", "TypeError"]`. -/
def attemptSuccess : AttemptResult → Bool
  | AttemptResult.ok => true
  | AttemptResult.thrown isError nm =>
      isError && !(["AbortError", "TypeError"].contains nm)

/-- Oracle for everything outside the engine's own state, indexed by the
candidate's position in the iterated list and the attempt index:
the transport's outcome for each attempt, the value of
`performance.now() - startTime` when attempt `i` dispatches its progress
update (`elapsedAt`) and when the candidate's attempts are over
(`elapsedFinal`), whether the user's stop click lands at the suspension
point right after attempt `i` (`stopSig`), and whether an exception from
a collaborator (e.g. a store subscriber run by `dispatch`) escapes the
loop at attempt `i` (`throwSig`); everything thrown inside the
per-attempt `try` is absorbed by its `catch`, so an escaping exception
can only arise at the calls outside it. -/
structure ProbeEnv where
  probes : Nat → Nat → AttemptResult
  elapsedAt : Nat → Nat → ℤ
  elapsedFinal : Nat → ℤ
  stopSig : Nat → Nat → Bool
  throwSig : Nat → Nat → Bool

/-- Accumulator of the per-candidate attempt loop: the store, the local
`testCount`, and how many probe attempts have actually been executed
(an observable of the model, counting transport invocations). -/
structure AttAcc where
  store : ScannerStore
  testCount : Nat
  attemptsRun : Nat
deriving DecidableEq, Repr

/-- The progress `dispatch` of attempt `i` (source lines 253-270):
`currentIP`, `tryChar = TRY_CHARS[i] || ""`, and for `i === 0` a red
color with zero latency, otherwise a green color with rolling latency
`Math.floor((performance.now() - startTime) / (i + 1))`. -/
def attemptDispatch (env : ProbeEnv) (k : Nat) (ip : String) (i : Nat)
    (s : ScannerStore) : ScannerStore :=
  if i = 0 then
    { s with currentIP := ip, tryChar := TRY_CHARS.getD i "",
             color := UiColor.red, currentLatency := 0 }
  else
    { s with currentIP := ip, tryChar := TRY_CHARS.getD i "",
             color := UiColor.green,
             currentLatency := Int.fdiv (env.elapsedAt k i) (i + 1 : ℤ) }

/-- One iteration of the attempt loop (source lines 248-294) for
candidate `k`, attempt `i`.  An already-escaped exception propagates; an
exception at this attempt's `dispatch` escapes with the state as it
stands; otherwise the progress update is applied, the probe runs and is
classified, and a pending stop click takes effect at the suspension
point before the next attempt. -/
def attemptStep (env : ProbeEnv) (k : Nat) (ip : String)
    (acc : Except AttAcc AttAcc) (i : Nat) : Except AttAcc AttAcc :=
  match acc with
  | Except.error a => Except.error a
  | Except.ok a =>
      if env.throwSig k i then
        Except.error a
      else
        let s1 := attemptDispatch env k ip i a.store
        let tc := if attemptSuccess (env.probes k i) then a.testCount + 1
                  else a.testCount
        let s2 := if env.stopSig k i then stopScan s1 else s1
        Except.ok ⟨s2, tc, a.attemptsRun + 1⟩

/-- The whole attempt loop `for (let i = 0; i < MAX_TRIES; i++)` for one
candidate, starting from `testCount = 0`. -/
def runAttempts (env : ProbeEnv) (k : Nat) (ip : String)
    (s : ScannerStore) : Except AttAcc AttAcc :=
  (List.range MAX_TRIES).foldl (attemptStep env k ip) (Except.ok ⟨s, 0, 0⟩)

/-- `Math.floor((performance.now() - startTime) / MAX_TRIES)`
(source line 296): the final latency of candidate `k`. -/
def finalLatency (env : ProbeEnv) (k : Nat) : ℤ :=
  Int.fdiv (env.elapsedFinal k) (MAX_TRIES : ℤ)

/-- The admission check of source lines 298-303:
`testCount === MAX_TRIES && latency <= maxLatency && latency > 50`. -/
def admitIP (env : ProbeEnv) (k : Nat) (ip : String) (tc : Nat)
    (s : ScannerStore) : ScannerStore :=
  if tc = MAX_TRIES ∧ finalLatency env k ≤ s.maxLatency
      ∧ 50 < finalLatency env k then
    addValidIP s ⟨ip, finalLatency env k⟩
  else s

/-- The per-candidate body of `testIPs` (source lines 233-303):
`increaseTestNo()`, the attempt loop, then the admission check.  The
payload carries the store and the number of attempts executed; an
`error` is an exception escaping the loop. -/
def processIP (env : ProbeEnv) (k : Nat) (ip : String) (s : ScannerStore) :
    Except (ScannerStore × Nat) (ScannerStore × Nat) :=
  match runAttempts env k ip (increaseTestNo s) with
  | Except.error a => Except.error (a.store, a.attemptsRun)
  | Except.ok a => Except.ok (admitIP env k ip a.testCount a.store, a.attemptsRun)

/-- Result of a scan run: the final store plus the total number of probe
attempts executed. -/
structure RunRes where
  store : ScannerStore
  attemptsRun : Nat
deriving DecidableEq, Repr

/-- `testIPs` (source lines 228-312): iterate the candidates in order;
after each candidate, `break` when the state is no longer `"scanning"`
or the valid-IP count has reached `maxIPCount`.  `k` is the position of
the current head in the original list, `ar` the attempts executed so
far.  An exception escaping a candidate's processing aborts the loop and
propagates (to the caller's `catch`). -/
def testIPs (env : ProbeEnv) (k : Nat) (s : ScannerStore) (ar : Nat) :
    List String → Except RunRes RunRes
  | [] => Except.ok ⟨s, ar⟩
  | ip :: rest =>
      match processIP env k ip s with
      | Except.error p => Except.error ⟨p.1, ar + p.2⟩
      | Except.ok p =>
          if p.1.scanState ≠ ScanState.scanning
              ∨ p.1.maxIPCount ≤ p.1.validIPs.length then
            Except.ok ⟨p.1, ar + p.2⟩
          else
            testIPs env (k + 1) p.1 (ar + p.2) rest

/-- The regex filtering of source lines 149-151 and 177-179, with the
`RegExp.test` semantics supplied as an external matcher `rm`. -/
def filteredIPs (rm : String → String → Bool) (regex : String)
    (ips : List String) : List String :=
  if regex ≠ "" then ips.filter (rm regex) else ips

/-- Modelled from the spec: the shuffle utility
(`~/helpers/randomizeElements`, imported on source line 3 but not under
`src/`) "produces a randomized permutation of the input candidate list"
(spec sections 2 and 4.1).  Randomness is not representable in a pure
embedding; the utility is modelled as one admissible permutation (the
identity).  Theorems that must hold for every permutation instead take
the shuffle as a parameter constrained by a `List.Perm` hypothesis. -/
def randomizeElements (l : List String) : List String := l

/-- `startScan` (source lines 146-159): `reset()`, filter by the regex,
set the state to `"scanning"`, run `testIPs` over the shuffled list,
then `setToIdle()`.  The `try/catch` around the body swallows an
escaping exception after logging it, leaving the store as it was at the
throw: the `error` branch.  (The pre-reset `state.ipRegex` snapshot and
the post-reset value coincide, since `reset` keeps the settings.) -/
def startScanRun (rm : String → String → Bool)
    (shuffle : List String → List String) (env : ProbeEnv)
    (allIps : List String) (s : ScannerStore) : RunRes :=
  let s0 := reset s
  match testIPs env 0 (beginScan s0) 0
      (shuffle (filteredIPs rm s0.ipRegex allIps)) with
  | Except.ok r => ⟨setToIdle r.store, r.attemptsRun⟩
  | Except.error r => r

/-- The store after `startScan` returns. -/
def startScan (rm : String → String → Bool)
    (shuffle : List String → List String) (env : ProbeEnv)
    (allIps : List String) (s : ScannerStore) : ScannerStore :=
  (startScanRun rm shuffle env allIps s).store

/-- `reStart` (source lines 174-187): identical to `startScan` except
that it does **not** call `reset()` (it only dismisses the toast, which
has no engine-state effect). -/
def reStartRun (rm : String → String → Bool)
    (shuffle : List String → List String) (env : ProbeEnv)
    (allIps : List String) (s : ScannerStore) : RunRes :=
  match testIPs env 0 (beginScan s) 0
      (shuffle (filteredIPs rm s.ipRegex allIps)) with
  | Except.ok r => ⟨setToIdle r.store, r.attemptsRun⟩
  | Except.error r => r

/-- The store after `reStart` returns. -/
def reStart (rm : String → String → Bool)
    (shuffle : List String → List String) (env : ProbeEnv)
    (allIps : List String) (s : ScannerStore) : ScannerStore :=
  (reStartRun rm shuffle env allIps s).store

/-- Number of attempts of candidate `k` that the source classifies as
successful (the value `testCount` reaches). -/
def successCount (env : ProbeEnv) (k : Nat) : Nat :=
  (List.range MAX_TRIES).countP (fun i => attemptSuccess (env.probes k i))

/-! Helper lemmas about the building blocks -/

/-- Payload of an attempt-loop outcome, whether it completed or threw. -/
def exAcc : Except AttAcc AttAcc → AttAcc
  | Except.ok a => a
  | Except.error a => a

/-- Payload of a per-candidate outcome. -/
def exPair : Except (ScannerStore × Nat) (ScannerStore × Nat) →
    ScannerStore × Nat
  | Except.ok p => p
  | Except.error p => p

/-- Payload of a scan-loop outcome. -/
def exRun : Except RunRes RunRes → RunRes
  | Except.ok r => r
  | Except.error r => r

/-- The `ok`-path of one attempt iteration, as a total function. -/
def attemptOkStep (env : ProbeEnv) (k : Nat) (ip : String) (i : Nat)
    (a : AttAcc) : AttAcc :=
  let s1 := attemptDispatch env k ip i a.store
  let tc := if attemptSuccess (env.probes k i) then a.testCount + 1
            else a.testCount
  ⟨if env.stopSig k i then stopScan s1 else s1, tc, a.attemptsRun + 1⟩

/-! Spec-modelled transport failure taxonomy -/

/-- Modelled from the spec: the transport collaborator
(`./axiosWithSNI`, imported on source line 4 but not under `src/`)
reports `success | timeoutFailure | otherFailure` (spec section 6).  A
failure reaches the engine as a thrown `Error`; per the spec's
taxonomy (section 7), deadline expiry and transport-level aborts are
the failures the engine's `["AbortError", "TypeError"]` check is meant
to recognise, and any other failure carries some other error name. -/
inductive ProbeFailure where
  | deadlineExpiry
  | transportAbort
  | otherFailure (name : String)
deriving DecidableEq, Repr

/-- Modelled from the spec: the `Error.name` under which each failure
cause of the transport contract reaches the engine's `catch`. -/
def failureErrorName : ProbeFailure → String
  | ProbeFailure.deadlineExpiry => "AbortError"
  | ProbeFailure.transportAbort => "TypeError"
  | ProbeFailure.otherFailure nm => nm

/-- A probe attempt's cause of completion under the transport
contract: either the request completed, or it failed with a
`ProbeFailure`. -/
inductive AttemptCause where
  | completed
  | failed (f : ProbeFailure)
deriving DecidableEq, Repr

/-- The `AttemptResult` the engine observes for each cause. -/
def causeOutcome : AttemptCause → AttemptResult
  | AttemptCause.completed => AttemptResult.ok
  | AttemptCause.failed f => AttemptResult.thrown true (failureErrorName f)

/-- The causes the spec excludes from the success tally: deadline
expiry and transport-level aborts. -/
def isTimeoutOrAbort (c : AttemptCause) : Prop :=
  c = AttemptCause.failed ProbeFailure.deadlineExpiry ∨
  c = AttemptCause.failed ProbeFailure.transportAbort

/-! Concrete scenarios used by closed theorems -/

/-- A matcher under which every candidate passes the regex filter. -/
def matchAlways : String → String → Bool := fun _ _ => true

/-- Scenario: every probe completes, each candidate takes 300 ms in
total (final latency 100 ms), no stop clicks, no exceptions. -/
def passProbe : ProbeEnv :=
  { probes := fun _ _ => AttemptResult.ok
    elapsedAt := fun _ _ => 300
    elapsedFinal := fun _ => 300
    stopSig := fun _ _ => false
    throwSig := fun _ _ => false }

/-- Scenario: every probe attempt is aborted (classified failed). -/
def failProbe : ProbeEnv :=
  { passProbe with probes := fun _ _ => AttemptResult.thrown true "AbortError" }

/-- Scenario: a collaborator exception escapes the loop at candidate 0,
attempt 1 (probes otherwise complete). -/
def throwProbe : ProbeEnv :=
  { passProbe with throwSig := fun k i => k == 0 && i == 1 }

/-- Scenario: the user's stop click lands right after attempt 0 of
candidate 0; all probe attempts are aborted. -/
def stopProbe : ProbeEnv :=
  { failProbe with stopSig := fun k i => k == 0 && i == 0 }

/-- The initial store with the result cap lowered to one entry. -/
def smallCap : ScannerStore := { initialState with maxIPCount := 1 }

/-- The state at which `throwProbe`'s exception escapes `startScan`'s
loop on candidate list `["1.1.1.1"]`: candidate 0 was counted and its
first attempt dispatched, then the throw hit before attempt 1. -/
def throwRunRes : RunRes :=
  ⟨{ initialState with
      testNo := 1
      currentIP := "1.1.1.1"
      scanState := ScanState.scanning }, 1⟩

lemma attemptStep_ok_eq (env : ProbeEnv) (k : Nat) (ip : String) (i : Nat)
    (a : AttAcc) (h : env.throwSig k i = false) :
    attemptStep env k ip (Except.ok a) i =
      Except.ok (attemptOkStep env k ip i a) := by
  simp [attemptStep, attemptOkStep, h]

@[simp] lemma attemptDispatch_scanState (env : ProbeEnv) (k : Nat)
    (ip : String) (i : Nat) (s : ScannerStore) :
    (attemptDispatch env k ip i s).scanState = s.scanState := by
  unfold attemptDispatch; split <;> rfl

lemma attemptDispatch_fields (env : ProbeEnv) (k : Nat) (ip : String)
    (i : Nat) (s : ScannerStore) :
    (attemptDispatch env k ip i s).validIPs = s.validIPs ∧
    (attemptDispatch env k ip i s).maxIPCount = s.maxIPCount ∧
    (attemptDispatch env k ip i s).maxLatency = s.maxLatency ∧
    (attemptDispatch env k ip i s).testNo = s.testNo ∧
    (attemptDispatch env k ip i s).ipRegex = s.ipRegex := by
  unfold attemptDispatch; split <;> exact ⟨rfl, rfl, rfl, rfl, rfl⟩

lemma stopScan_fields (s : ScannerStore) :
    (stopScan s).validIPs = s.validIPs ∧
    (stopScan s).maxIPCount = s.maxIPCount ∧
    (stopScan s).maxLatency = s.maxLatency ∧
    (stopScan s).testNo = s.testNo ∧
    (stopScan s).ipRegex = s.ipRegex := by
  unfold stopScan setToIdle; split <;> exact ⟨rfl, rfl, rfl, rfl, rfl⟩

lemma stopScan_scanState_scanning (s : ScannerStore)
    (h : s.scanState = ScanState.scanning) :
    (stopScan s).scanState = ScanState.stopping := by
  simp [stopScan, h]

/-- The fields an attempt iteration can never change, on every path
(already-thrown, throwing now, or completing). -/
lemma attemptStep_fields (env : ProbeEnv) (k : Nat) (ip : String)
    (acc : Except AttAcc AttAcc) (i : Nat) :
    (exAcc (attemptStep env k ip acc i)).store.validIPs
        = (exAcc acc).store.validIPs ∧
    (exAcc (attemptStep env k ip acc i)).store.maxIPCount
        = (exAcc acc).store.maxIPCount ∧
    (exAcc (attemptStep env k ip acc i)).store.maxLatency
        = (exAcc acc).store.maxLatency ∧
    (exAcc (attemptStep env k ip acc i)).store.testNo
        = (exAcc acc).store.testNo ∧
    (exAcc (attemptStep env k ip acc i)).store.ipRegex
        = (exAcc acc).store.ipRegex := by
  obtain ⟨a⟩ | ⟨a⟩ := acc
  · simp [attemptStep, exAcc]
  · by_cases ht : env.throwSig k i
    · simp [attemptStep, exAcc, ht]
    · rw [show (Except.ok a : Except AttAcc AttAcc) = Except.ok a from rfl,
        attemptStep_ok_eq env k ip i a (by simpa using ht)]
      have hd := attemptDispatch_fields env k ip i a.store
      have hs := stopScan_fields (attemptDispatch env k ip i a.store)
      simp only [exAcc, attemptOkStep]
      split
      · exact ⟨hs.1.trans hd.1, hs.2.1.trans hd.2.1, hs.2.2.1.trans hd.2.2.1,
          hs.2.2.2.1.trans hd.2.2.2.1, hs.2.2.2.2.trans hd.2.2.2.2⟩
      · exact hd

/-- Without a stop click at this attempt, the attempt iteration
preserves `scanState` on every path. -/
lemma attemptStep_scanState (env : ProbeEnv) (k : Nat) (ip : String)
    (acc : Except AttAcc AttAcc) (i : Nat)
    (hstop : env.stopSig k i = false) :
    (exAcc (attemptStep env k ip acc i)).store.scanState
      = (exAcc acc).store.scanState := by
  obtain ⟨a⟩ | ⟨a⟩ := acc
  · simp [attemptStep, exAcc]
  · by_cases ht : env.throwSig k i
    · simp [attemptStep, exAcc, ht]
    · rw [attemptStep_ok_eq env k ip i a (by simpa using ht)]
      simp [exAcc, attemptOkStep, hstop]

lemma attemptOkStep_fields (env : ProbeEnv) (k : Nat) (ip : String)
    (i : Nat) (a : AttAcc) :
    (attemptOkStep env k ip i a).store.validIPs = a.store.validIPs ∧
    (attemptOkStep env k ip i a).store.maxIPCount = a.store.maxIPCount ∧
    (attemptOkStep env k ip i a).store.maxLatency = a.store.maxLatency ∧
    (attemptOkStep env k ip i a).store.testNo = a.store.testNo ∧
    (attemptOkStep env k ip i a).store.ipRegex = a.store.ipRegex ∧
    (attemptOkStep env k ip i a).attemptsRun = a.attemptsRun + 1 ∧
    (attemptOkStep env k ip i a).testCount = a.testCount +
      (if attemptSuccess (env.probes k i) then 1 else 0) := by
  have hd := attemptDispatch_fields env k ip i a.store
  have hs := stopScan_fields (attemptDispatch env k ip i a.store)
  unfold attemptOkStep
  refine ⟨?_, ?_, ?_, ?_, ?_, rfl, ?_⟩
  · show (if env.stopSig k i then _ else _ : ScannerStore).validIPs = _
    split
    · exact hs.1.trans hd.1
    · exact hd.1
  · show (if env.stopSig k i then _ else _ : ScannerStore).maxIPCount = _
    split
    · exact hs.2.1.trans hd.2.1
    · exact hd.2.1
  · show (if env.stopSig k i then _ else _ : ScannerStore).maxLatency = _
    split
    · exact hs.2.2.1.trans hd.2.2.1
    · exact hd.2.2.1
  · show (if env.stopSig k i then _ else _ : ScannerStore).testNo = _
    split
    · exact hs.2.2.2.1.trans hd.2.2.2.1
    · exact hd.2.2.2.1
  · show (if env.stopSig k i then _ else _ : ScannerStore).ipRegex = _
    split
    · exact hs.2.2.2.2.trans hd.2.2.2.2
    · exact hd.2.2.2.2
  · show (if attemptSuccess (env.probes k i) then a.testCount + 1
          else a.testCount) = _
    split <;> simp

lemma attemptOkStep_scanState_nostop (env : ProbeEnv) (k : Nat)
    (ip : String) (i : Nat) (a : AttAcc) (h : env.stopSig k i = false) :
    (attemptOkStep env k ip i a).store.scanState = a.store.scanState := by
  simp [attemptOkStep, h]

lemma attemptOkStep_scanState_stop (env : ProbeEnv) (k : Nat)
    (ip : String) (i : Nat) (a : AttAcc) (h : env.stopSig k i = true)
    (hs : a.store.scanState = ScanState.scanning) :
    (attemptOkStep env k ip i a).store.scanState = ScanState.stopping := by
  simp only [attemptOkStep, h, if_true]
  exact stopScan_scanState_scanning _ (by simp [hs])

/-- With no escaping exception at this candidate, the attempt loop is
the three-fold composite of `attemptOkStep`. -/
lemma runAttempts_ok (env : ProbeEnv) (k : Nat) (ip : String)
    (s : ScannerStore) (hthrow : ∀ i, i < MAX_TRIES → env.throwSig k i = false) :
    runAttempts env k ip s =
      Except.ok (attemptOkStep env k ip 2 (attemptOkStep env k ip 1
        (attemptOkStep env k ip 0 ⟨s, 0, 0⟩))) := by
  rw [runAttempts, show List.range MAX_TRIES = [0, 1, 2] from rfl]
  simp only [List.foldl]
  rw [attemptStep_ok_eq env k ip 0 _ (hthrow 0 (by decide)),
      attemptStep_ok_eq env k ip 1 _ (hthrow 1 (by decide)),
      attemptStep_ok_eq env k ip 2 _ (hthrow 2 (by decide))]

lemma successCount_eq (env : ProbeEnv) (k : Nat) :
    successCount env k =
      ((if attemptSuccess (env.probes k 0) then 1 else 0) +
       (if attemptSuccess (env.probes k 1) then 1 else 0)) +
      (if attemptSuccess (env.probes k 2) then 1 else 0) := by
  rw [successCount, show List.range MAX_TRIES = [0, 1, 2] from rfl]
  cases h0 : attemptSuccess (env.probes k 0) <;>
    cases h1 : attemptSuccess (env.probes k 1) <;>
    cases h2 : attemptSuccess (env.probes k 2) <;>
    simp [List.countP_cons, h0, h1, h2]

/-- Summary of a throw-free attempt loop: the result is `ok`, its
`testCount` is the number of successfully classified attempts, all
three probes ran, the loop touches none of the listed store fields, and
absent stop clicks it preserves `scanState`. -/
lemma runAttempts_ok_spec (env : ProbeEnv) (k : Nat) (ip : String)
    (s : ScannerStore)
    (hthrow : ∀ i, i < MAX_TRIES → env.throwSig k i = false) :
    ∃ a : AttAcc, runAttempts env k ip s = Except.ok a ∧
      a.testCount = successCount env k ∧
      a.attemptsRun = MAX_TRIES ∧
      a.store.validIPs = s.validIPs ∧
      a.store.maxIPCount = s.maxIPCount ∧
      a.store.maxLatency = s.maxLatency ∧
      a.store.testNo = s.testNo ∧
      a.store.ipRegex = s.ipRegex ∧
      ((∀ i, i < MAX_TRIES → env.stopSig k i = false) →
        a.store.scanState = s.scanState) := by
  refine ⟨_, runAttempts_ok env k ip s hthrow, ?_, ?_, ?_, ?_, ?_, ?_, ?_, ?_⟩
  all_goals
    have f0 := attemptOkStep_fields env k ip 0 (⟨s, 0, 0⟩ : AttAcc)
    have f1 := attemptOkStep_fields env k ip 1
      (attemptOkStep env k ip 0 ⟨s, 0, 0⟩)
    have f2 := attemptOkStep_fields env k ip 2
      (attemptOkStep env k ip 1 (attemptOkStep env k ip 0 ⟨s, 0, 0⟩))
  · rw [f2.2.2.2.2.2.2, f1.2.2.2.2.2.2, f0.2.2.2.2.2.2, successCount_eq]
    simp
  · rw [f2.2.2.2.2.2.1, f1.2.2.2.2.2.1, f0.2.2.2.2.2.1]
    rfl
  · rw [f2.1, f1.1, f0.1]
  · rw [f2.2.1, f1.2.1, f0.2.1]
  · rw [f2.2.2.1, f1.2.2.1, f0.2.2.1]
  · rw [f2.2.2.2.1, f1.2.2.2.1, f0.2.2.2.1]
  · rw [f2.2.2.2.2.1, f1.2.2.2.2.1, f0.2.2.2.2.1]
  · intro hstop
    rw [attemptOkStep_scanState_nostop env k ip 2 _ (hstop 2 (by decide)),
        attemptOkStep_scanState_nostop env k ip 1 _ (hstop 1 (by decide)),
        attemptOkStep_scanState_nostop env k ip 0 _ (hstop 0 (by decide))]

/-- The attempt loop never changes the listed store fields, on any path
(including a path on which an exception escapes part-way). -/
lemma runAttempts_fields (env : ProbeEnv) (k : Nat) (ip : String)
    (s : ScannerStore) :
    (exAcc (runAttempts env k ip s)).store.validIPs = s.validIPs ∧
    (exAcc (runAttempts env k ip s)).store.maxIPCount = s.maxIPCount ∧
    (exAcc (runAttempts env k ip s)).store.maxLatency = s.maxLatency ∧
    (exAcc (runAttempts env k ip s)).store.testNo = s.testNo ∧
    (exAcc (runAttempts env k ip s)).store.ipRegex = s.ipRegex := by
  rw [runAttempts, show List.range MAX_TRIES = [0, 1, 2] from rfl]
  simp only [List.foldl]
  have h0 := attemptStep_fields env k ip (Except.ok ⟨s, 0, 0⟩) 0
  have h1 := attemptStep_fields env k ip
    (attemptStep env k ip (Except.ok ⟨s, 0, 0⟩) 0) 1
  have h2 := attemptStep_fields env k ip
    (attemptStep env k ip (attemptStep env k ip (Except.ok ⟨s, 0, 0⟩) 0) 1) 2
  exact ⟨h2.1.trans (h1.1.trans h0.1),
    h2.2.1.trans (h1.2.1.trans h0.2.1),
    h2.2.2.1.trans (h1.2.2.1.trans h0.2.2.1),
    h2.2.2.2.1.trans (h1.2.2.2.1.trans h0.2.2.2.1),
    h2.2.2.2.2.trans (h1.2.2.2.2.trans h0.2.2.2.2)⟩

/-- With no stop click at this candidate, the attempt loop preserves
`scanState` on any path. -/
lemma runAttempts_scanState (env : ProbeEnv) (k : Nat) (ip : String)
    (s : ScannerStore) (hstop : ∀ i, i < MAX_TRIES → env.stopSig k i = false) :
    (exAcc (runAttempts env k ip s)).store.scanState = s.scanState := by
  rw [runAttempts, show List.range MAX_TRIES = [0, 1, 2] from rfl]
  simp only [List.foldl]
  rw [attemptStep_scanState env k ip _ 2 (hstop 2 (by decide)),
      attemptStep_scanState env k ip _ 1 (hstop 1 (by decide)),
      attemptStep_scanState env k ip _ 0 (hstop 0 (by decide))]
  rfl

lemma admitIP_fields (env : ProbeEnv) (k : Nat) (ip : String) (tc : Nat)
    (s : ScannerStore) :
    (admitIP env k ip tc s).scanState = s.scanState ∧
    (admitIP env k ip tc s).testNo = s.testNo ∧
    (admitIP env k ip tc s).maxIPCount = s.maxIPCount ∧
    (admitIP env k ip tc s).maxLatency = s.maxLatency ∧
    (admitIP env k ip tc s).ipRegex = s.ipRegex ∧
    (admitIP env k ip tc s).validIPs =
      (if tc = MAX_TRIES ∧ finalLatency env k ≤ s.maxLatency
          ∧ 50 < finalLatency env k then
        List.insertionSort latLe (s.validIPs ++ [⟨ip, finalLatency env k⟩])
      else s.validIPs) := by
  unfold admitIP addValidIP
  split <;> simp

/-- Summary of a throw-free candidate: `processIP` returns `ok`, ran all
three probes, bumped `testNo` by one, admitted the candidate exactly
when the source's admission condition holds, and (absent stop clicks)
preserved `scanState`. -/
lemma processIP_ok_spec (env : ProbeEnv) (k : Nat) (ip : String)
    (s : ScannerStore)
    (hthrow : ∀ i, i < MAX_TRIES → env.throwSig k i = false) :
    ∃ s' : ScannerStore, processIP env k ip s = Except.ok (s', MAX_TRIES) ∧
      s'.maxIPCount = s.maxIPCount ∧
      s'.maxLatency = s.maxLatency ∧
      s'.testNo = s.testNo + 1 ∧
      s'.ipRegex = s.ipRegex ∧
      s'.validIPs =
        (if successCount env k = MAX_TRIES
            ∧ finalLatency env k ≤ s.maxLatency
            ∧ 50 < finalLatency env k then
          List.insertionSort latLe (s.validIPs ++ [⟨ip, finalLatency env k⟩])
        else s.validIPs) ∧
      ((∀ i, i < MAX_TRIES → env.stopSig k i = false) →
        s'.scanState = s.scanState) := by
  obtain ⟨a, ha, htc, har, hv, hc, hl, hn, hr, hsc⟩ :=
    runAttempts_ok_spec env k ip (increaseTestNo s) hthrow
  have hfld := admitIP_fields env k ip a.testCount a.store
  refine ⟨admitIP env k ip a.testCount a.store, ?_, ?_, ?_, ?_, ?_, ?_, ?_⟩
  · simp only [processIP, ha, har]
  · rw [hfld.2.2.1, hc]; rfl
  · rw [hfld.2.2.2.1, hl]; rfl
  · rw [hfld.2.1, hn]; rfl
  · rw [hfld.2.2.2.2.1, hr]; rfl
  · rw [hfld.2.2.2.2.2, htc, hv, hl]
    rfl
  · intro hstop
    rw [hfld.1, hsc hstop]; rfl

/-- Field preservation of a candidate's processing on any path: the
settings survive, `testNo` grows by one, and the valid-IP list grows by
at most one entry. -/
lemma processIP_fields (env : ProbeEnv) (k : Nat) (ip : String)
    (s : ScannerStore) :
    (exPair (processIP env k ip s)).1.maxIPCount = s.maxIPCount ∧
    (exPair (processIP env k ip s)).1.maxLatency = s.maxLatency ∧
    (exPair (processIP env k ip s)).1.ipRegex = s.ipRegex ∧
    (exPair (processIP env k ip s)).1.validIPs.length
      ≤ s.validIPs.length + 1 := by
  have hfa := runAttempts_fields env k ip (increaseTestNo s)
  rw [processIP]
  cases hra : runAttempts env k ip (increaseTestNo s) with
  | error a =>
      rw [hra] at hfa
      simp only [exAcc, increaseTestNo] at hfa
      refine ⟨hfa.2.1, hfa.2.2.1, hfa.2.2.2.2, ?_⟩
      show a.store.validIPs.length ≤ _
      rw [hfa.1]
      omega
  | ok a =>
      rw [hra] at hfa
      simp only [exAcc, increaseTestNo] at hfa
      have hfld := admitIP_fields env k ip a.testCount a.store
      refine ⟨hfld.2.2.1.trans hfa.2.1, hfld.2.2.2.1.trans hfa.2.2.1,
        hfld.2.2.2.2.1.trans hfa.2.2.2.2, ?_⟩
      show (admitIP env k ip a.testCount a.store).validIPs.length ≤ _
      rw [hfld.2.2.2.2.2]
      split
      · rw [List.length_insertionSort, List.length_append, hfa.1]; rfl
      · rw [hfa.1]; omega

/-- Without a stop click at candidate `k`, its processing preserves
`scanState` on any path. -/
lemma processIP_scanState (env : ProbeEnv) (k : Nat) (ip : String)
    (s : ScannerStore)
    (hstop : ∀ i, i < MAX_TRIES → env.stopSig k i = false) :
    (exPair (processIP env k ip s)).1.scanState = s.scanState := by
  have hsc := runAttempts_scanState env k ip (increaseTestNo s) hstop
  rw [processIP]
  cases hra : runAttempts env k ip (increaseTestNo s) with
  | error a =>
      rw [hra] at hsc
      simp only [exAcc] at hsc
      exact hsc
  | ok a =>
      rw [hra] at hsc
      simp only [exAcc] at hsc
      exact ((admitIP_fields env k ip a.testCount a.store).1).trans hsc

/-- Loop invariant behind the result-cap check: started strictly below
the cap, the scan loop never leaves the valid-IP list longer than
`maxIPCount` (which it also never changes), on any path. -/
lemma testIPs_length_le (env : ProbeEnv) (l : List String) :
    ∀ (k : Nat) (s : ScannerStore) (ar : Nat),
      s.validIPs.length < s.maxIPCount →
      (exRun (testIPs env k s ar l)).store.validIPs.length ≤ s.maxIPCount ∧
      (exRun (testIPs env k s ar l)).store.maxIPCount = s.maxIPCount := by
  induction l with
  | nil =>
      intro k s ar h
      exact ⟨Nat.le_of_lt h, rfl⟩
  | cons ip rest ih =>
      intro k s ar h
      have hp := processIP_fields env k ip s
      simp only [testIPs]
      cases hpi : processIP env k ip s with
      | error p =>
          rw [hpi] at hp
          simp only [exPair] at hp
          dsimp only [exRun]
          exact ⟨by omega, hp.1⟩
      | ok p =>
          rw [hpi] at hp
          simp only [exPair] at hp
          dsimp only
          split
          · dsimp only [exRun]
            exact ⟨by omega, hp.1⟩
          · rename_i hguard
            rw [not_or] at hguard
            have h' : p.1.validIPs.length < p.1.maxIPCount := by
              rcases hguard with ⟨_, hg2⟩
              omega
            obtain ⟨b1, b2⟩ := ih (k + 1) p.1 (ar + p.2) h'
            exact ⟨by omega, by omega⟩

/-- If an exception escapes the scan loop while no stop was ever
requested, the state at the moment of the throw still carries the
`scanState` the loop was entered with. -/
lemma testIPs_error_scanState (env : ProbeEnv)
    (hstop : ∀ k i, env.stopSig k i = false) (l : List String) :
    ∀ (k : Nat) (s : ScannerStore) (ar : Nat) (r : RunRes),
      testIPs env k s ar l = Except.error r →
      r.store.scanState = s.scanState := by
  induction l with
  | nil =>
      intro k s ar r h
      simp [testIPs] at h
  | cons ip rest ih =>
      intro k s ar r h
      have hsc := processIP_scanState env k ip s (fun i _ => hstop k i)
      simp only [testIPs] at h
      cases hpi : processIP env k ip s with
      | error p =>
          rw [hpi] at h hsc
          simp only [exPair] at hsc
          simp only at h
          cases h
          exact hsc
      | ok p =>
          rw [hpi] at h hsc
          simp only [exPair] at hsc
          simp only at h
          split at h
          · cases h
          · exact (ih (k + 1) p.1 (ar + p.2) r h).trans hsc

/-- If every probe outcome is classified as failed and neither stop
clicks nor exceptions occur, the loop walks the entire list: `testNo`
grows by the list length, three attempts run per candidate, nothing is
admitted, and the state stays `scanning`. -/
lemma testIPs_visits_all (env : ProbeEnv)
    (hthrow : ∀ k i, env.throwSig k i = false)
    (hstop : ∀ k i, env.stopSig k i = false)
    (hfail : ∀ k i, attemptSuccess (env.probes k i) = false)
    (l : List String) :
    ∀ (k : Nat) (s : ScannerStore) (ar : Nat),
      s.scanState = ScanState.scanning →
      s.validIPs.length < s.maxIPCount →
      ∃ r : RunRes, testIPs env k s ar l = Except.ok r ∧
        r.store.testNo = s.testNo + l.length ∧
        r.store.validIPs = s.validIPs ∧
        r.store.scanState = ScanState.scanning ∧
        r.attemptsRun = ar + MAX_TRIES * l.length := by
  induction l with
  | nil =>
      intro k s ar hs _
      exact ⟨⟨s, ar⟩, rfl, by simp, rfl, hs, by simp⟩
  | cons ip rest ih =>
      intro k s ar hs hlen
      obtain ⟨s', hok, hc, hl, hn, hr, hv, hscan⟩ :=
        processIP_ok_spec env k ip s (fun i _ => hthrow k i)
      have hnosucc : successCount env k = 0 := by
        rw [successCount_eq, hfail k 0, hfail k 1, hfail k 2]
        simp
      have hv' : s'.validIPs = s.validIPs := by
        rw [hv, if_neg]
        intro hcond
        rw [hnosucc] at hcond
        exact absurd hcond.1 (by decide)
      have hsc' : s'.scanState = ScanState.scanning :=
        (hscan (fun i _ => hstop k i)).trans hs
      simp only [testIPs, hok]
      rw [if_neg]
      · obtain ⟨r, hrec, r1, r2, r3, r4⟩ :=
          ih (k + 1) s' (ar + MAX_TRIES) hsc' (by rw [hv', hc]; exact hlen)
        refine ⟨r, hrec, ?_, by rw [r2, hv'], r3, ?_⟩
        · rw [List.length_cons, r1, hn]
          omega
        · rw [List.length_cons, r4]
          simp only [MAX_TRIES]
          omega
      · rw [not_or, hv', hc]
        exact ⟨by simp [hsc'], by omega⟩

/-- If exactly one stop click lands during this candidate's attempts
(at attempt `j`) while the engine is `scanning`, the attempt loop ends
with `scanState = stopping`: the click flips `scanning` to `stopping`
and no later step touches the state. -/
lemma runAttempts_stop_scanState (env : ProbeEnv) (k : Nat) (ip : String)
    (s : ScannerStore) (j : Nat) (hj : j < MAX_TRIES)
    (hthrow : ∀ i, i < MAX_TRIES → env.throwSig k i = false)
    (hone : env.stopSig k j = true)
    (hother : ∀ i, i < MAX_TRIES → i ≠ j → env.stopSig k i = false)
    (hs : s.scanState = ScanState.scanning) :
    (exAcc (runAttempts env k ip s)).store.scanState = ScanState.stopping := by
  rw [runAttempts_ok env k ip s hthrow]
  dsimp only [exAcc]
  have hj' : j < 3 := hj
  interval_cases j
  · rw [attemptOkStep_scanState_nostop env k ip 2 _
        (hother 2 (by decide) (by decide)),
      attemptOkStep_scanState_nostop env k ip 1 _
        (hother 1 (by decide) (by decide))]
    exact attemptOkStep_scanState_stop env k ip 0 _ hone hs
  · rw [attemptOkStep_scanState_nostop env k ip 2 _
        (hother 2 (by decide) (by decide))]
    exact attemptOkStep_scanState_stop env k ip 1 _ hone
      ((attemptOkStep_scanState_nostop env k ip 0 _
        (hother 0 (by decide) (by decide))).trans hs)
  · exact attemptOkStep_scanState_stop env k ip 2 _ hone
      (((attemptOkStep_scanState_nostop env k ip 1 _
          (hother 1 (by decide) (by decide))).trans
        (attemptOkStep_scanState_nostop env k ip 0 _
          (hother 0 (by decide) (by decide)))).trans hs)

/-- A stop click landing anywhere during the first candidate of the
remaining list (and nowhere else in that candidate) lets that candidate
finish all three attempts, after which the loop observes the state at
the candidate boundary and halts: exactly one candidate was counted,
three attempts ran, and the loop returns with `scanState = stopping`. -/
lemma testIPs_stop_first (env : ProbeEnv) (ip : String) (rest : List String)
    (k : Nat) (s : ScannerStore) (ar : Nat) (j : Nat) (hj : j < MAX_TRIES)
    (hthrow : ∀ i, i < MAX_TRIES → env.throwSig k i = false)
    (hone : env.stopSig k j = true)
    (hother : ∀ i, i < MAX_TRIES → i ≠ j → env.stopSig k i = false)
    (hs : s.scanState = ScanState.scanning) :
    ∃ r : RunRes, testIPs env k s ar (ip :: rest) = Except.ok r ∧
      r.store.scanState = ScanState.stopping ∧
      r.store.testNo = s.testNo + 1 ∧
      r.attemptsRun = ar + MAX_TRIES := by
  obtain ⟨a, ha, _, har, _, _, _, hn, _, _⟩ :=
    runAttempts_ok_spec env k ip (increaseTestNo s) hthrow
  have hsc := runAttempts_stop_scanState env k ip (increaseTestNo s) j hj
    hthrow hone hother hs
  rw [ha] at hsc
  dsimp only [exAcc] at hsc
  have hfld := admitIP_fields env k ip a.testCount a.store
  have hsc' : (admitIP env k ip a.testCount a.store).scanState
      = ScanState.stopping := hfld.1.trans hsc
  refine ⟨⟨admitIP env k ip a.testCount a.store, ar + MAX_TRIES⟩, ?_, hsc', ?_, rfl⟩
  · simp only [testIPs, processIP, ha, har]
    rw [if_pos]
    left
    rw [hsc']
    decide
  · rw [hfld.2.1, hn]
    rfl

lemma mathTrunc_intCast (n : ℤ) : mathTrunc ((n : ℚ)) = n := by
  simp [mathTrunc, Rat.num_intCast, Rat.den_intCast]

/-- Unfolding of the per-candidate timeout bookkeeping: the abort timer
of attempt `i` is armed with the value the `timeout` variable held
*before* attempt `i`'s reassignment, while the transport receives the
reassigned value. -/
lemma timeoutSchedule_eq (L : ℤ) :
    timeoutSchedule L =
      [(mathTrunc (1.5 * multiply L * (L : ℚ)), multiply L * (L : ℚ)),
       (mathTrunc (multiply L * (L : ℚ)), 1.2 * multiply L * (L : ℚ)),
       (mathTrunc (1.2 * multiply L * (L : ℚ)), 1.2 * multiply L * (L : ℚ))] := by
  rw [timeoutSchedule, show List.range MAX_TRIES = [0, 1, 2] from rfl]
  simp [timeoutStepFold]

/-! Claim theorems -/

/-- C5: after every insertion, the Result Store is sorted ascending by
latency (`latLe`, the key of the source comparator), and the stored
entries are exactly the previous ones plus the inserted one (as a
multiset, i.e. up to permutation). -/
theorem addValidIP_sorted_perm (s : ScannerStore) (v : ValidIP) :
    List.Sorted latLe (addValidIP s v).validIPs ∧
    (addValidIP s v).validIPs.Perm (v :: s.validIPs) := by
  constructor
  · exact List.sorted_insertionSort latLe _
  · exact (List.perm_insertionSort latLe _).trans
      (@List.perm_append_comm _ s.validIPs [v])

/-- C2 counterexample: at `maxLatency = 1500` (the default setting) the
claim puts attempt 1's hard deadline at `1.2 × 1 × 1500 = 1800` ms, but
the abort timer for attempt 1 is armed with the value the `timeout`
variable held before its reassignment — `1 × 1500 = 1500` ms — so the
in-flight request of attempt 1 is cancelled at 1500 ms, not 1800 ms. -/
theorem attempt_deadline_claim_cx :
    ¬ (∀ i, i < MAX_TRIES →
        cancelDeadline 1500 i = specClaimedDeadline 1500 i) := by
  intro h
  have h1 := h 1 (by decide)
  have hm : multiply 1500 = 1 := by norm_num [multiply]
  rw [cancelDeadline, timeoutSchedule_eq, specClaimedDeadline] at h1
  simp only [hm, one_mul] at h1
  rw [mathTrunc_intCast] at h1
  norm_num [min_def] at h1

/-- C2 amended: per attempt, the transport receives the timeout the
claim states (`multiply × maxLatency` for attempt 0, `1.2 × multiply ×
maxLatency` for attempts 1-2), but the hard abort timer is armed one
assignment late: `Math.trunc` of `1.5 × multiply × maxLatency` for
attempt 0, of `multiply × maxLatency` for attempt 1, and of `1.2 ×
multiply × maxLatency` for attempt 2 — whichever of the two mechanisms
fires first cancels the in-flight request. -/
theorem attempt_timeout_schedule (L : ℤ) :
    timeoutSchedule L =
      [(mathTrunc (1.5 * multiply L * (L : ℚ)), multiply L * (L : ℚ)),
       (mathTrunc (multiply L * (L : ℚ)), 1.2 * multiply L * (L : ℚ)),
       (mathTrunc (1.2 * multiply L * (L : ℚ)),
        1.2 * multiply L * (L : ℚ))] :=
  timeoutSchedule_eq L

/-- C3: under the transport contract, an attempt is classified
successful iff its cause was not deadline expiry nor a transport-level
abort: a completed request (any HTTP response) counts, and so does any
other failure, provided its error name is not one of the two the engine
checks for. -/
theorem attempt_success_classification (c : AttemptCause)
    (hname : ∀ nm, c = AttemptCause.failed (ProbeFailure.otherFailure nm) →
      nm ≠ "AbortError" ∧ nm ≠ "TypeError") :
    attemptSuccess (causeOutcome c) = true ↔ ¬ isTimeoutOrAbort c := by
  cases c with
  | completed => simp [causeOutcome, attemptSuccess, isTimeoutOrAbort]
  | failed f =>
      cases f with
      | deadlineExpiry =>
          simp [causeOutcome, attemptSuccess, failureErrorName,
            isTimeoutOrAbort]
      | transportAbort =>
          simp [causeOutcome, attemptSuccess, failureErrorName,
            isTimeoutOrAbort]
      | otherFailure nm =>
          obtain ⟨h1, h2⟩ := hname nm rfl
          simp [causeOutcome, attemptSuccess, failureErrorName,
            isTimeoutOrAbort, h1, h2]

/-- Witness for C3 at a concrete non-timeout failure name. -/
theorem attempt_success_classification_witness :
    (∀ nm, AttemptCause.failed (ProbeFailure.otherFailure "AxiosError")
        = AttemptCause.failed (ProbeFailure.otherFailure nm) →
      nm ≠ "AbortError" ∧ nm ≠ "TypeError") ∧
    (attemptSuccess (causeOutcome
        (AttemptCause.failed (ProbeFailure.otherFailure "AxiosError"))) = true
      ↔ ¬ isTimeoutOrAbort
          (AttemptCause.failed (ProbeFailure.otherFailure "AxiosError"))) := by
  constructor
  · intro nm h
    cases h
    exact ⟨by decide, by decide⟩
  · exact attempt_success_classification
      (AttemptCause.failed (ProbeFailure.otherFailure "AxiosError"))
      (fun nm h => by cases h; exact ⟨by decide, by decide⟩)

/-- C1: a candidate (processed without an escaping exception) is
admitted into the Result Store iff all three probe attempts were
classified successful (`successCount = MAX_TRIES`, equivalently every
attempt classified successful) AND its final latency — the floor of the
elapsed time divided by 3, regardless of how many attempts succeeded —
is at most `maxLatency` AND strictly greater than 50 ms; in that case
exactly the entry `(ip, finalLatency)` is added, otherwise the store is
unchanged. -/
theorem admission_policy_iff (env : ProbeEnv) (k : Nat) (ip : String)
    (s : ScannerStore)
    (hthrow : ∀ i, i < MAX_TRIES → env.throwSig k i = false) :
    ∃ s' : ScannerStore, processIP env k ip s = Except.ok (s', MAX_TRIES) ∧
      (successCount env k = MAX_TRIES ↔
        ∀ i, i < MAX_TRIES → attemptSuccess (env.probes k i) = true) ∧
      s'.validIPs.Perm
        ((if successCount env k = MAX_TRIES
             ∧ finalLatency env k ≤ s.maxLatency
             ∧ 50 < finalLatency env k
          then [ValidIP.mk ip (finalLatency env k)] else []) ++ s.validIPs) := by
  obtain ⟨s', hok, _, _, _, _, hv, _⟩ :=
    processIP_ok_spec env k ip s hthrow
  refine ⟨s', hok, ?_, ?_⟩
  · have hsplit : successCount env k = MAX_TRIES ↔
        (attemptSuccess (env.probes k 0) = true ∧
         attemptSuccess (env.probes k 1) = true ∧
         attemptSuccess (env.probes k 2) = true) := by
      rw [successCount_eq]
      cases h0 : attemptSuccess (env.probes k 0) <;>
        cases h1 : attemptSuccess (env.probes k 1) <;>
        cases h2 : attemptSuccess (env.probes k 2) <;>
        simp [MAX_TRIES]
    rw [hsplit]
    constructor
    · rintro ⟨a0, a1, a2⟩ i hi
      have hi' : i < 3 := hi
      interval_cases i <;> assumption
    · intro h
      exact ⟨h 0 (by decide), h 1 (by decide), h 2 (by decide)⟩
  · rw [hv]
    by_cases hcond : successCount env k = MAX_TRIES
        ∧ finalLatency env k ≤ s.maxLatency ∧ 50 < finalLatency env k
    · rw [if_pos hcond, if_pos hcond]
      exact (List.perm_insertionSort latLe _).trans
        (@List.perm_append_comm _ s.validIPs
          [ValidIP.mk ip (finalLatency env k)])
    · rw [if_neg hcond, if_neg hcond, List.nil_append]

/-- Witness for C1: the all-passing scenario admits the candidate. -/
theorem admission_policy_iff_witness :
    (∀ i, i < MAX_TRIES → passProbe.throwSig 0 i = false) ∧
    (∃ s' : ScannerStore,
      processIP passProbe 0 "1.1.1.1" initialState
          = Except.ok (s', MAX_TRIES) ∧
      (successCount passProbe 0 = MAX_TRIES ↔
        ∀ i, i < MAX_TRIES → attemptSuccess (passProbe.probes 0 i) = true) ∧
      s'.validIPs.Perm
        ((if successCount passProbe 0 = MAX_TRIES
             ∧ finalLatency passProbe 0 ≤ initialState.maxLatency
             ∧ 50 < finalLatency passProbe 0
          then [ValidIP.mk "1.1.1.1" (finalLatency passProbe 0)] else [])
          ++ initialState.validIPs)) :=
  ⟨by decide,
    admission_policy_iff passProbe 0 "1.1.1.1" initialState (by decide)⟩

/-- C10: when the candidate list is empty or the filter pattern
eliminates every candidate, `startScan` probes nothing: it ends idle
with an empty Result Store and `testNo = 0`. -/
theorem empty_candidates_scan_idle (rm : String → String → Bool)
    (shuffle : List String → List String) (env : ProbeEnv)
    (allIps : List String) (s : ScannerStore)
    (hperm : ∀ l, (shuffle l).Perm l)
    (hempty : allIps = [] ∨ filteredIPs rm s.ipRegex allIps = []) :
    (startScan rm shuffle env allIps s).scanState = ScanState.idle ∧
    (startScan rm shuffle env allIps s).validIPs = [] ∧
    (startScan rm shuffle env allIps s).testNo = 0 := by
  have hf : filteredIPs rm s.ipRegex allIps = [] := by
    rcases hempty with h | h
    · rw [h]
      unfold filteredIPs
      split <;> simp
    · exact h
  have hshuffle : shuffle (filteredIPs rm (reset s).ipRegex allIps) = [] := by
    have hr : (reset s).ipRegex = s.ipRegex := rfl
    rw [hr]
    exact List.Perm.eq_nil (hf ▸ hperm (filteredIPs rm s.ipRegex allIps))
  rw [startScan, startScanRun, hshuffle]
  exact ⟨rfl, rfl, rfl⟩

/-- Witness for C10: an empty candidate list. -/
theorem empty_candidates_scan_idle_witness :
    (∀ l, (randomizeElements l).Perm l) ∧
    (([] : List String) = [] ∨
      filteredIPs matchAlways initialState.ipRegex [] = []) ∧
    ((startScan matchAlways randomizeElements passProbe [] initialState).scanState
        = ScanState.idle ∧
      (startScan matchAlways randomizeElements passProbe [] initialState).validIPs
        = [] ∧
      (startScan matchAlways randomizeElements passProbe [] initialState).testNo
        = 0) :=
  ⟨fun l => List.Perm.refl l, Or.inl rfl,
    empty_candidates_scan_idle matchAlways randomizeElements passProbe []
      initialState (fun l => List.Perm.refl l) (Or.inl rfl)⟩

/-- C4 counterexample: with `maxIPCount = 1`, a completed `startScan`
fills the Result Store to its cap; the user-triggered deeper search
(`reStart`) does not reset the store and admits one more candidate
before the loop's cap check runs, leaving 2 entries — more than
`maxIPCount`. -/
theorem result_cap_exceeded_cx :
    (reStart matchAlways randomizeElements passProbe ["1.1.1.1"]
      (startScan matchAlways randomizeElements passProbe ["1.1.1.1"]
        smallCap)).maxIPCount = 1 ∧
    1 < (reStart matchAlways randomizeElements passProbe ["1.1.1.1"]
      (startScan matchAlways randomizeElements passProbe ["1.1.1.1"]
        smallCap)).validIPs.length := by
  decide

/-- C4 amended: within a single `startScan` (which resets the store
before probing), the Result Store never exceeds `maxIPCount` — on every
path, including early stops and escaping exceptions; the bound does not
survive `reStart`, which skips the reset. -/
theorem startScan_result_cap (rm : String → String → Bool)
    (shuffle : List String → List String) (env : ProbeEnv)
    (allIps : List String) (s : ScannerStore) (hcap : 0 < s.maxIPCount) :
    (startScan rm shuffle env allIps s).validIPs.length ≤ s.maxIPCount ∧
    (startScan rm shuffle env allIps s).maxIPCount = s.maxIPCount := by
  rw [startScan, startScanRun]
  have h0 : (beginScan (reset s)).validIPs.length
      < (beginScan (reset s)).maxIPCount := by
    simpa [beginScan, reset] using hcap
  have hb := testIPs_length_le env
    (shuffle (filteredIPs rm (reset s).ipRegex allIps)) 0
    (beginScan (reset s)) 0 h0
  cases hres : testIPs env 0 (beginScan (reset s)) 0
      (shuffle (filteredIPs rm (reset s).ipRegex allIps)) with
  | ok r =>
      rw [hres] at hb
      dsimp only [exRun] at hb
      exact ⟨hb.1, hb.2⟩
  | error r =>
      rw [hres] at hb
      dsimp only [exRun] at hb
      exact ⟨hb.1, hb.2⟩

/-- Witness for C4 amended at the single-candidate pass scenario. -/
theorem startScan_result_cap_witness :
    0 < smallCap.maxIPCount ∧
    ((startScan matchAlways randomizeElements passProbe ["1.1.1.1"]
        smallCap).validIPs.length ≤ smallCap.maxIPCount ∧
      (startScan matchAlways randomizeElements passProbe ["1.1.1.1"]
        smallCap).maxIPCount = smallCap.maxIPCount) :=
  ⟨by decide,
    startScan_result_cap matchAlways randomizeElements passProbe
      ["1.1.1.1"] smallCap (by decide)⟩

/-- C6 counterexample: after a `startScan` that admitted one candidate,
the deeper-search re-invocation begins its scan from `beginScan` of the
prior store — with the old result still inside (first conjunct); and
even though the re-run's probes all fail (so it admits nothing), the
store is still non-empty when `reStart` returns (second conjunct).  The
Result Store is therefore not empty at the moment the deeper-search
scan starts. -/
theorem restart_keeps_results_cx :
    (beginScan (startScan matchAlways randomizeElements passProbe
      ["1.1.1.1"] initialState)).validIPs ≠ [] ∧
    (reStart matchAlways randomizeElements failProbe ["1.1.1.1"]
      (startScan matchAlways randomizeElements passProbe ["1.1.1.1"]
        initialState)).validIPs ≠ [] := by
  decide

/-- C6 amended: `startScan` fully resets transient state before
probing — the loop starts from `beginScan (reset s)`, whose Result
Store is empty and attempt counter zero; but the deeper-search
re-invocation `reStart` performs no reset: its loop starts from
`beginScan s`, retaining the prior store contents and counter. -/
theorem start_resets_restart_does_not :
    (∀ s : ScannerStore,
      (beginScan (reset s)).validIPs = [] ∧ (beginScan (reset s)).testNo = 0) ∧
    (∀ (rm : String → String → Bool) (shuffle : List String → List String)
        (env : ProbeEnv) (allIps : List String) (s : ScannerStore),
      startScanRun rm shuffle env allIps s =
        (match testIPs env 0 (beginScan (reset s)) 0
            (shuffle (filteredIPs rm (reset s).ipRegex allIps)) with
          | Except.ok r => ⟨setToIdle r.store, r.attemptsRun⟩
          | Except.error r => r)) ∧
    (∀ s : ScannerStore,
      (beginScan s).validIPs = s.validIPs ∧ (beginScan s).testNo = s.testNo) ∧
    (∀ (rm : String → String → Bool) (shuffle : List String → List String)
        (env : ProbeEnv) (allIps : List String) (s : ScannerStore),
      reStartRun rm shuffle env allIps s =
        (match testIPs env 0 (beginScan s) 0
            (shuffle (filteredIPs rm s.ipRegex allIps)) with
          | Except.ok r => ⟨setToIdle r.store, r.attemptsRun⟩
          | Except.error r => r)) :=
  ⟨fun _ => ⟨rfl, rfl⟩, fun _ _ _ _ _ => rfl,
   fun _ => ⟨rfl, rfl⟩, fun _ _ _ _ _ => rfl⟩

/-- C7 counterexample: a collaborator exception escaping the loop at
candidate 0, attempt 1 is caught by `startScan`'s `catch`, but the
`catch` block does not restore the state: `startScan` returns with
`scanState` still `scanning`, not `idle`. -/
theorem exception_leaves_scanning_cx :
    (startScan matchAlways randomizeElements throwProbe ["1.1.1.1"]
      initialState).scanState = ScanState.scanning ∧
    (startScan matchAlways randomizeElements throwProbe ["1.1.1.1"]
      initialState).scanState ≠ ScanState.idle := by
  decide

/-- C7 amended: an unexpected exception during the scan loop is indeed
caught (`startScan` returns the state as of the throw instead of
propagating), but the engine does not transition to `idle`: with no
stop request pending, `scanState` remains `scanning` after `startScan`
returns. -/
theorem exception_caught_not_idle (rm : String → String → Bool)
    (shuffle : List String → List String) (env : ProbeEnv)
    (allIps : List String) (s : ScannerStore) (r : RunRes)
    (hstop : ∀ k i, env.stopSig k i = false)
    (herr : testIPs env 0 (beginScan (reset s)) 0
        (shuffle (filteredIPs rm (reset s).ipRegex allIps))
      = Except.error r) :
    startScan rm shuffle env allIps s = r.store ∧
    (startScan rm shuffle env allIps s).scanState = ScanState.scanning := by
  have h1 : startScan rm shuffle env allIps s = r.store := by
    rw [startScan, startScanRun, herr]
  refine ⟨h1, ?_⟩
  rw [h1, testIPs_error_scanState env hstop _ 0 (beginScan (reset s)) 0 r herr]
  rfl

/-- Witness for C7 amended at the concrete throwing scenario. -/
theorem exception_caught_not_idle_witness :
    (∀ k i, throwProbe.stopSig k i = false) ∧
    testIPs throwProbe 0 (beginScan (reset initialState)) 0
        (randomizeElements (filteredIPs matchAlways
          (reset initialState).ipRegex ["1.1.1.1"]))
      = Except.error throwRunRes ∧
    (startScan matchAlways randomizeElements throwProbe ["1.1.1.1"]
        initialState = throwRunRes.store ∧
      (startScan matchAlways randomizeElements throwProbe ["1.1.1.1"]
        initialState).scanState = ScanState.scanning) :=
  ⟨fun _ _ => rfl, rfl,
    exception_caught_not_idle matchAlways randomizeElements throwProbe
      ["1.1.1.1"] initialState throwRunRes (fun _ _ => rfl) rfl⟩

set_option maxRecDepth 8000 in
/-- C8 counterexample: on a filtered, shuffled list of 151 candidates
whose probes all fail (so neither the result cap nor a stop ends the
loop early), `startScan` probes all 151 candidates — `testNo` reaches
151, beyond the 150-per-search cap the claim says the engine enforces
by truncation. -/
theorem no_engine_truncation_cx :
    (startScan matchAlways randomizeElements failProbe
      (List.replicate 151 "1.1.1.1") initialState).testNo = 151 ∧
    ¬ ((startScan matchAlways randomizeElements failProbe
      (List.replicate 151 "1.1.1.1") initialState).testNo ≤ 150) := by
  decide

/-- C8 amended: the engine performs no truncation at all: whenever
nothing ends the loop early (no admission is possible, no stop, no
exception), `startScan` probes every candidate of the filtered,
shuffled list, however long it is; any 150-candidate ceiling must come
from the caller. -/
theorem scan_evaluates_every_candidate (rm : String → String → Bool)
    (shuffle : List String → List String) (env : ProbeEnv)
    (allIps : List String) (s : ScannerStore)
    (hthrow : ∀ k i, env.throwSig k i = false)
    (hstop : ∀ k i, env.stopSig k i = false)
    (hfail : ∀ k i, attemptSuccess (env.probes k i) = false)
    (hcap : 0 < s.maxIPCount) :
    (startScan rm shuffle env allIps s).testNo
      = (shuffle (filteredIPs rm s.ipRegex allIps)).length ∧
    (startScan rm shuffle env allIps s).validIPs = [] := by
  have hr : (reset s).ipRegex = s.ipRegex := rfl
  obtain ⟨r, hok, hn, hv, _, _⟩ := testIPs_visits_all env hthrow hstop hfail
    (shuffle (filteredIPs rm (reset s).ipRegex allIps)) 0
    (beginScan (reset s)) 0 rfl (by simpa [beginScan, reset] using hcap)
  rw [startScan, startScanRun, hok]
  constructor
  · show (setToIdle r.store).testNo = _
    rw [setToIdle, hr] at *
    simpa [beginScan, reset] using hn
  · show (setToIdle r.store).validIPs = _
    simpa [setToIdle, beginScan, reset] using hv

/-- Witness for C8 amended on a two-candidate list. -/
theorem scan_evaluates_every_candidate_witness :
    (∀ k i, failProbe.throwSig k i = false) ∧
    (∀ k i, failProbe.stopSig k i = false) ∧
    (∀ k i, attemptSuccess (failProbe.probes k i) = false) ∧
    0 < initialState.maxIPCount ∧
    ((startScan matchAlways randomizeElements failProbe
        ["1.1.1.1", "2.2.2.2"] initialState).testNo
      = (randomizeElements (filteredIPs matchAlways initialState.ipRegex
          ["1.1.1.1", "2.2.2.2"])).length ∧
      (startScan matchAlways randomizeElements failProbe
        ["1.1.1.1", "2.2.2.2"] initialState).validIPs = []) :=
  ⟨fun _ _ => rfl, fun _ _ => rfl, fun _ _ => rfl, by decide,
    scan_evaluates_every_candidate matchAlways randomizeElements failProbe
      ["1.1.1.1", "2.2.2.2"] initialState (fun _ _ => rfl) (fun _ _ => rfl)
      (fun _ _ => rfl) (by decide)⟩

/-- C9 counterexample: the stop click lands right after attempt 0 of
candidate 0 (of two), so the state is already `stopping` between probe
attempts — yet all 3 attempts of candidate 0 still execute
(`attemptsRun = 3`, not 1): the cancellation signal is not observed
between probe attempts, only at the candidate boundary, where the loop
then halts (`testNo = 1`, candidate 1 never probed) in state
`stopping`. -/
theorem stop_mid_candidate_cx :
    (exRun (testIPs stopProbe 0 (beginScan (reset initialState)) 0
      ["1.1.1.1", "2.2.2.2"])).attemptsRun = 3 ∧
    (exRun (testIPs stopProbe 0 (beginScan (reset initialState)) 0
      ["1.1.1.1", "2.2.2.2"])).store.testNo = 1 ∧
    (exRun (testIPs stopProbe 0 (beginScan (reset initialState)) 0
      ["1.1.1.1", "2.2.2.2"])).store.scanState = ScanState.stopping := by
  decide

/-- C9 amended: `stopScan` while `scanning` moves the state to
`stopping`; in any other state it forces `idle` directly (so it is
idempotent once idle).  The `stopping` signal is observed by the loop
between candidates only: a stop click landing during a candidate's
attempts lets all three attempts finish, after which the loop halts at
the candidate boundary in state `stopping`, and the engine's final
`setToIdle` then converges to `idle` — never skipping `stopping`. -/
theorem stop_semantics :
    (∀ s : ScannerStore, s.scanState = ScanState.scanning →
      stopScan s = { s with scanState := ScanState.stopping }) ∧
    (∀ s : ScannerStore, s.scanState ≠ ScanState.scanning →
      stopScan s = setToIdle s ∧ (stopScan s).scanState = ScanState.idle) ∧
    (∀ (env : ProbeEnv) (ip : String) (rest : List String) (k : Nat)
        (s : ScannerStore) (ar : Nat) (j : Nat), j < MAX_TRIES →
      (∀ i, i < MAX_TRIES → env.throwSig k i = false) →
      env.stopSig k j = true →
      (∀ i, i < MAX_TRIES → i ≠ j → env.stopSig k i = false) →
      s.scanState = ScanState.scanning →
      ∃ r : RunRes, testIPs env k s ar (ip :: rest) = Except.ok r ∧
        r.store.scanState = ScanState.stopping ∧
        r.store.testNo = s.testNo + 1 ∧
        r.attemptsRun = ar + MAX_TRIES ∧
        (setToIdle r.store).scanState = ScanState.idle) := by
  refine ⟨?_, ?_, ?_⟩
  · intro s h
    rw [stopScan, if_pos h]
  · intro s h
    rw [stopScan, if_neg h]
    exact ⟨rfl, rfl⟩
  · intro env ip rest k s ar j hj hthrow hone hother hs
    obtain ⟨r, hok, h1, h2, h3⟩ :=
      testIPs_stop_first env ip rest k s ar j hj hthrow hone hother hs
    exact ⟨r, hok, h1, h2, h3, rfl⟩

/-- Witness for C9 amended: concrete states for both `stopScan`
transitions, and the concrete stop-during-candidate-0 scenario. -/
theorem stop_semantics_witness :
    (beginScan initialState).scanState = ScanState.scanning ∧
    stopScan (beginScan initialState)
      = { beginScan initialState with scanState := ScanState.stopping } ∧
    initialState.scanState ≠ ScanState.scanning ∧
    (stopScan initialState = setToIdle initialState ∧
      (stopScan initialState).scanState = ScanState.idle) ∧
    (0 : Nat) < MAX_TRIES ∧
    (∀ i, i < MAX_TRIES → stopProbe.throwSig 0 i = false) ∧
    stopProbe.stopSig 0 0 = true ∧
    (∀ i, i < MAX_TRIES → i ≠ 0 → stopProbe.stopSig 0 i = false) ∧
    (beginScan (reset initialState)).scanState = ScanState.scanning ∧
    (∃ r : RunRes,
      testIPs stopProbe 0 (beginScan (reset initialState)) 0
        ["1.1.1.1", "2.2.2.2"] = Except.ok r ∧
      r.store.scanState = ScanState.stopping ∧
      r.store.testNo = (beginScan (reset initialState)).testNo + 1 ∧
      r.attemptsRun = 0 + MAX_TRIES ∧
      (setToIdle r.store).scanState = ScanState.idle) :=
  ⟨rfl, stop_semantics.1 (beginScan initialState) rfl,
    by decide,
    stop_semantics.2.1 initialState (by decide),
    by decide, by decide, rfl, by decide, rfl,
    stop_semantics.2.2 stopProbe "1.1.1.1" ["2.2.2.2"] 0
      (beginScan (reset initialState)) 0 0 (by decide) (by decide) rfl
      (by decide) rfl⟩

end KScanner

